import Mathlib

/-
Verification of the authentication core of the wedding_planner_service
repository (Go).  The Go sources are shallowly embedded: pure functions
become Lean functions, wall-clock time is an explicit `Int` parameter
(unix seconds), the HMAC signature is modelled as a collision-free record
of (algorithm, key, signed claims), and Go errors are modelled as a tree
that supports the `errors.Is` unwrapping discipline used by the code.
-/

namespace WeddingPlanner

/-- GoErr models a Go `error` value.  `sentinel tag msg` is a package-level
`errors.New` value (identified by its unique tag, as Go identifies sentinels
by pointer); `wrap1 msg w` is `fmt.Errorf` with one `%w` argument; `wrap2`
has two `%w` arguments (as produced by the jwt library internal `newError`).
The `msg` field always carries the fully rendered message string. -/
inductive GoErr where
  | sentinel (tag msg : String)
  | wrap1 (msg : String) (w : GoErr)
  | wrap2 (msg : String) (w1 w2 : GoErr)
deriving DecidableEq, Repr

/-- errMsg models Go `err.Error()`: the rendered message of the error. -/
def errMsg : GoErr → String
  | .sentinel _ m => m
  | .wrap1 m _ => m
  | .wrap2 m _ _ => m

/-- errsIs models Go `errors.Is(e, target)`: walk the unwrap chain looking
for the target error. -/
def errsIs : GoErr → GoErr → Bool
  | .sentinel t m, target => GoErr.sentinel t m == target
  | .wrap1 m w, target => GoErr.wrap1 m w == target || errsIs w target
  | .wrap2 m w1 w2, target =>
      GoErr.wrap2 m w1 w2 == target || errsIs w1 target || errsIs w2 target

/-- goWrapV models Go `fmt.Errorf("%w: %v", base, extra)`: the base error is
wrapped (visible to `errors.Is`), the extra text is rendered into the
message only. -/
def goWrapV (base : GoErr) (extra : String) : GoErr :=
  .wrap1 (errMsg base ++ ": " ++ extra) base

/-- newError0 models the jwt/v5 internal `newError(message, base)` with no
further wrapped error: `fmt.Errorf("%w: %s", base, message)`. -/
def newError0 (message : String) (base : GoErr) : GoErr :=
  .wrap1 (errMsg base ++ ": " ++ message) base

/-- newError1 models the jwt/v5 internal `newError(message, base, more)`
with one extra wrapped error: both `base` and `more` are reachable by
`errors.Is`.  An empty `message` renders as `base: more`. -/
def newError1 (message : String) (base more : GoErr) : GoErr :=
  if message = "" then .wrap2 (errMsg base ++ ": " ++ errMsg more) base more
  else .wrap2 (errMsg base ++ ": " ++ message ++ ": " ++ errMsg more) base more

/-! Sentinel errors of the application (internal/auth/auth.go). -/

/-- ErrTokenMissing is `auth.ErrTokenMissing`. -/
def ErrTokenMissing : GoErr := .sentinel "auth.ErrTokenMissing" "authorization token is missing"

/-- ErrTokenInvalid is `auth.ErrTokenInvalid`. -/
def ErrTokenInvalid : GoErr := .sentinel "auth.ErrTokenInvalid" "token is invalid or malformed"

/-- ErrTokenExpired is `auth.ErrTokenExpired`. -/
def ErrTokenExpired : GoErr := .sentinel "auth.ErrTokenExpired" "token has expired"

/-- ErrTokenNotValidYet is `auth.ErrTokenNotValidYet`. -/
def ErrTokenNotValidYet : GoErr := .sentinel "auth.ErrTokenNotValidYet" "token is not valid yet"

/-- ErrInvalidSigningMethod is `auth.ErrInvalidSigningMethod`. -/
def ErrInvalidSigningMethod : GoErr :=
  .sentinel "auth.ErrInvalidSigningMethod" "invalid token signing method"

/-! Sentinel errors of the golang-jwt/jwt/v5 library. -/

/-- jwtErrTokenMalformed is `jwt.ErrTokenMalformed`. -/
def jwtErrTokenMalformed : GoErr := .sentinel "jwt.ErrTokenMalformed" "token is malformed"

/-- jwtErrTokenUnverifiable is `jwt.ErrTokenUnverifiable`. -/
def jwtErrTokenUnverifiable : GoErr := .sentinel "jwt.ErrTokenUnverifiable" "token is unverifiable"

/-- jwtErrTokenSignatureInvalid is `jwt.ErrTokenSignatureInvalid`. -/
def jwtErrTokenSignatureInvalid : GoErr :=
  .sentinel "jwt.ErrTokenSignatureInvalid" "token signature is invalid"

/-- jwtErrTokenInvalidClaims is `jwt.ErrTokenInvalidClaims`. -/
def jwtErrTokenInvalidClaims : GoErr :=
  .sentinel "jwt.ErrTokenInvalidClaims" "token has invalid claims"

/-- jwtErrTokenExpired is `jwt.ErrTokenExpired`. -/
def jwtErrTokenExpired : GoErr := .sentinel "jwt.ErrTokenExpired" "token is expired"

/-- jwtErrTokenNotValidYet is `jwt.ErrTokenNotValidYet`. -/
def jwtErrTokenNotValidYet : GoErr := .sentinel "jwt.ErrTokenNotValidYet" "token is not valid yet"

/-- jwtErrSignatureInvalid is `jwt.ErrSignatureInvalid`, returned by the
HMAC `Verify` method on a MAC mismatch. -/
def jwtErrSignatureInvalid : GoErr := .sentinel "jwt.ErrSignatureInvalid" "signature is invalid"

/-! The token data model.  A JWT claims payload as used by this service
(`auth.Claims` embeds `jwt.RegisteredClaims`).  Timestamps are unix
seconds (`jwt.NumericDate` serialises at second precision); absent
registered claims are `none`. -/

/-- TClaims is `auth.Claims`: custom `user_id` and `email` fields plus the
registered claims the service uses (exp, iat, nbf, iss, sub). -/
structure TClaims where
  userID : Nat
  email : String
  exp : Option Int
  iat : Option Int
  nbf : Option Int
  issuer : String
  subject : String
deriving DecidableEq, Repr

/-- zeroClaims is the zero value of `auth.Claims`, the state of the claims
object when decoding never ran. -/
def zeroClaims : TClaims := ⟨0, "", none, none, none, "", ""⟩

/-- Sig models an HMAC signature value.  HMAC is deterministic, so a
signature is modelled (collision-free idealisation) as the record of the
algorithm, the key, and the signed claims payload; verification recomputes
this record and compares. -/
structure Sig where
  alg : String
  key : String
  payload : TClaims
deriving DecidableEq, Repr

/-- hmacSign models producing the HMAC signature over the serialized
header (which fixes the algorithm) and claims with the given key. -/
def hmacSign (key alg : String) (payload : TClaims) : Sig := ⟨alg, key, payload⟩

/-- RawToken is a structurally well-formed compact JWT: a header declaring
an algorithm, a decodable claims payload, and a signature segment. -/
structure RawToken where
  alg : String
  claims : TClaims
  sig : Sig
deriving DecidableEq, Repr

/-- TokenStr models a non-empty token string handed to
`jwt.ParseWithClaims`: either the canonical compact serialisation of a
well-formed token, or a string that fails structural decoding (wrong
number of segments, bad base64, bad JSON). -/
inductive TokenStr where
  | wellFormed (t : RawToken)
  | malformed (raw : String)
deriving DecidableEq, Repr

/-- Header models the Authorization header of a request at the wire level:
absent, a bearer header whose remainder trims to a non-empty token string,
or any other header value (wrong scheme, or a bearer header whose
remainder trims to empty). -/
inductive Header where
  | missing
  | bearer (t : TokenStr)
  | other (s : String)
deriving DecidableEq, Repr

/-- hmacAlgs are the algorithm names whose jwt signing method is
`*jwt.SigningMethodHMAC`. -/
def hmacAlgs : List String := ["HS256", "HS384", "HS512"]

/-- registeredAlgs are the algorithm names registered with the jwt/v5
library, for which `jwt.GetSigningMethod` succeeds. -/
def registeredAlgs : List String :=
  ["HS256", "HS384", "HS512", "RS256", "RS384", "RS512", "ES256", "ES384",
   "ES512", "PS256", "PS384", "PS512", "EdDSA", "none"]

/-- returnVerificationKey is `auth.returnVerificationKey`: the jwt keyfunc.
It rejects any signing method that is not the HMAC family with an error
wrapping ErrInvalidSigningMethod (`fmt.Errorf` with the header alg rendered
via `%v`), and otherwise returns the process secret. -/
def returnVerificationKey (secret : String) (alg : String) : Except GoErr String :=
  if hmacAlgs.contains alg then .ok secret
  else .error (goWrapV ErrInvalidSigningMethod alg)

/-- validatorValidate is the jwt/v5 default `Validator.Validate` on the
claims the service uses: the expiration check (valid while `now < exp`,
zero leeway) and the not-before check (valid once `nbf ≤ now`); absent
claims are skipped; the collected errors are joined. -/
def validatorValidate (now : Int) (c : TClaims) : Option GoErr :=
  let errs : List GoErr :=
    (match c.exp with
      | some e => if now < e then [] else [jwtErrTokenExpired]
      | none => []) ++
    (match c.nbf with
      | some b => if now < b then [jwtErrTokenNotValidYet] else []
      | none => [])
  match errs with
  | [] => none
  | [a] => some a
  | a :: b :: _ => some (.wrap2 (errMsg a ++ "\n" ++ errMsg b) a b)

/-- ParseResult is the observable outcome of `jwt.ParseWithClaims`: the
claims object after decoding, the `token.Valid` flag, and the returned
error (if any). -/
structure ParseResult where
  claims : TClaims
  valid : Bool
  err : Option GoErr
deriving DecidableEq, Repr

/-- parseWithClaims is `jwt.ParseWithClaims(tokenString, claims,
returnVerificationKey)` from jwt/v5, specialised to the keyfunc this
service uses.  Pipeline, in source order: structural decode, signing
method lookup, keyfunc, signature verification, claims validation; the
first failure aborts with a wrapped error and `Valid` stays false. -/
def parseWithClaims (secret : String) (now : Int) (ts : TokenStr) : ParseResult :=
  match ts with
  | .malformed _ =>
      ⟨zeroClaims, false,
        some (newError0 "token contains an invalid number of segments" jwtErrTokenMalformed)⟩
  | .wellFormed t =>
      if registeredAlgs.contains t.alg = false then
        ⟨t.claims, false,
          some (newError0 "signing method (alg) is unavailable" jwtErrTokenUnverifiable)⟩
      else
        match returnVerificationKey secret t.alg with
        | .error e =>
            ⟨t.claims, false,
              some (newError1 "error while executing keyfunc" jwtErrTokenUnverifiable e)⟩
        | .ok key =>
            if t.sig ≠ hmacSign key t.alg t.claims then
              ⟨t.claims, false,
                some (newError1 "" jwtErrTokenSignatureInvalid jwtErrSignatureInvalid)⟩
            else
              match validatorValidate now t.claims with
              | some ve => ⟨t.claims, false, some (newError1 "" jwtErrTokenInvalidClaims ve)⟩
              | none => ⟨t.claims, true, none⟩

/-- TokenExpirationTime is `auth.TokenExpirationTime` (24 hours), expressed
in the unix-seconds scale of the model (the Go constant is a
`time.Duration` in nanoseconds; claims serialise in seconds). -/
def TokenExpirationTime : Int := 24 * 3600

/-- CreateToken is `auth.CreateToken`: build the claims (exp = now + 24h,
iat = nbf = now, issuer, decimal subject) and sign with HMAC-SHA256 under
the process secret.  The Go function can only fail on a signing-primitive
error, which the HMAC model excludes. -/
def CreateToken (secret : String) (now : Int) (userID : Nat) (email : String) : TokenStr :=
  let expirationTime := now + TokenExpirationTime
  let claims : TClaims :=
    { userID := userID
      email := email
      exp := some expirationTime
      iat := some now
      nbf := some now
      issuer := "wedding_planner_service"
      subject := toString userID }
  .wellFormed { alg := "HS256", claims := claims, sig := hmacSign secret "HS256" claims }

/-- extractTokenWire is `auth.ExtractToken` at the wire level of the
`Header` abstraction: a bearer header yields its token string, anything
else yields the empty string (`none`). -/
def extractTokenWire : Header → Option TokenStr
  | .missing => none
  | .bearer t => some t
  | .other _ => none

/-- VerifyToken is `auth.VerifyToken`: empty token means ErrTokenMissing;
a parse error is mapped to ErrTokenExpired or ErrTokenNotValidYet when
`errors.Is` finds the corresponding jwt sentinel, and otherwise wrapped as
`fmt.Errorf` of ErrTokenInvalid with the parse error rendered via `%v`;
finally the `Valid` flag is checked.  Returns `none` on success. -/
def VerifyToken (secret : String) (now : Int) (hdr : Header) : Option GoErr :=
  match extractTokenWire hdr with
  | none => some ErrTokenMissing
  | some ts =>
      let out := parseWithClaims secret now ts
      match out.err with
      | some e =>
          if errsIs e jwtErrTokenExpired then some ErrTokenExpired
          else if errsIs e jwtErrTokenNotValidYet then some ErrTokenNotValidYet
          else some (goWrapV ErrTokenInvalid (errMsg e))
      | none => if out.valid then none else some ErrTokenInvalid

/-- ExtractUserID is `auth.ExtractUserID`: empty token means
ErrTokenMissing; any parse error, or a false `Valid` flag, means
ErrTokenInvalid; otherwise the UserID claim is returned. -/
def ExtractUserID (secret : String) (now : Int) (hdr : Header) : Except GoErr Nat :=
  match extractTokenWire hdr with
  | none => .error ErrTokenMissing
  | some ts =>
      let out := parseWithClaims secret now ts
      if out.err.isSome || !out.valid then .error ErrTokenInvalid
      else .ok out.claims.userID

/-- ExtractTokenMetadata is `auth.ExtractTokenMetadata`: like ExtractUserID
but returning the full claims object. -/
def ExtractTokenMetadata (secret : String) (now : Int) (hdr : Header) : Except GoErr TClaims :=
  match extractTokenWire hdr with
  | none => .error ErrTokenMissing
  | some ts =>
      let out := parseWithClaims secret now ts
      if out.err.isSome || !out.valid then .error ErrTokenInvalid
      else .ok out.claims

/-! String-level model of `auth.ExtractToken`.  Go strings are byte
sequences; the functions below model the Go string operations the source
uses (`len`, `strings.HasPrefix`, slicing, `strings.TrimSpace`). -/

/-- goIsSpace is `unicode.IsSpace`: the Unicode white-space code points. -/
def goIsSpace (ch : Char) : Bool :=
  ch ∈ [' ', '\t', '\n', (Char.ofNat 11), (Char.ofNat 12), '\r',
        (Char.ofNat 0x85), (Char.ofNat 0xA0), (Char.ofNat 0x1680),
        (Char.ofNat 0x2028), (Char.ofNat 0x2029), (Char.ofNat 0x202F),
        (Char.ofNat 0x205F), (Char.ofNat 0x3000)] ||
  (0x2000 ≤ ch.toNat && ch.toNat ≤ 0x200A)

/-- goTrimSpace is `strings.TrimSpace`: drop white space from both ends. -/
def goTrimSpace (s : String) : String :=
  String.mk (((s.data.dropWhile goIsSpace).reverse.dropWhile goIsSpace).reverse)

/-- goHasPrefix is `strings.HasPrefix`. -/
def goHasPrefix (s pre : String) : Bool :=
  pre.data.isPrefixOf s.data

/-- utf8Len is the byte length of a character sequence, modelling Go
`len` on a string. -/
def utf8Len : List Char → Nat
  | [] => 0
  | ch :: rest => ch.utf8Size + utf8Len rest

/-- goLen is Go `len(s)` for a string: its length in bytes. -/
def goLen (s : String) : Nat := utf8Len s.data

/-- ExtractToken is `auth.ExtractToken` at the string level: if the
Authorization header value is longer than 7 bytes and has the prefix
"Bearer ", return the remainder after the 7-byte prefix with surrounding
white space trimmed; otherwise return the empty string.  A missing header
reaches this function as the empty string (`c.GetHeader` zero value). -/
def ExtractToken (authHeader : String) : String :=
  if goLen authHeader > 7 && goHasPrefix authHeader "Bearer " then
    goTrimSpace (String.mk (authHeader.data.drop 7))
  else ""

/-! The Authorization Gate middleware
(internal/server/middlewares/auth.go). -/

/-- MWOut is the observable outcome of running the middleware on one
request: the response status and body written (if any), the key/value
stored in the request context (if any), and whether `c.Next()` ran, that
is whether downstream handlers execute. -/
structure MWOut where
  status : Option Nat
  body : Option String
  ctx : Option (String × Nat)
  nextCalled : Bool
deriving DecidableEq, Repr

/-- AuthMiddleware is `middlewares.AuthMiddleware`: verify the token; on
failure answer 401 with the error message and abort; then extract the user
ID; on failure answer 401 with a generic message and abort; otherwise
store the ID under the context key "user_id" and continue the pipeline. -/
def AuthMiddleware (secret : String) (now : Int) (hdr : Header) : MWOut :=
  match VerifyToken secret now hdr with
  | some e => ⟨some 401, some (errMsg e), none, false⟩
  | none =>
      match ExtractUserID secret now hdr with
      | .error _ => ⟨some 401, some "failed to extract user information", none, false⟩
      | .ok userID => ⟨none, none, some ("user_id", userID), true⟩

/-! The password hasher (internal/security/security.go), wrapping
golang.org/x/crypto/bcrypt.  The bcrypt key derivation is modelled as a
collision-free record of (cost, salt, password bytes); bcrypt uses at most
72 bytes of the password, modelled here at character granularity. -/

/-- bcryptDefaultCost is `bcrypt.DefaultCost`. -/
def bcryptDefaultCost : Nat := 10

/-- errPasswordTooLong is `bcrypt.ErrPasswordTooLong`. -/
def errPasswordTooLong : GoErr :=
  .sentinel "bcrypt.ErrPasswordTooLong" "bcrypt: password length exceeds 72 bytes"

/-- errMismatchedHashAndPassword is `bcrypt.ErrMismatchedHashAndPassword`. -/
def errMismatchedHashAndPassword : GoErr :=
  .sentinel "bcrypt.ErrMismatchedHashAndPassword"
    "crypto/bcrypt: hashedPassword is not the hash of the given password"

/-- errHashTooShort is `bcrypt.ErrHashTooShort`, representative of the
decode failures a malformed stored hash produces. -/
def errHashTooShort : GoErr :=
  .sentinel "bcrypt.ErrHashTooShort" "crypto/bcrypt: hashedSecret too short to be a bcrypted password"

/-- BcryptDigest models a well-formed bcrypt hash value: the cost, the
random salt, and the key-derivation output, idealised collision-free as
the (at most 72 bytes of the) password itself. -/
structure BcryptDigest where
  cost : Nat
  salt : Nat
  key : List Char
deriving DecidableEq, Repr

/-- StoredHash models the stored password-hash string: either a
well-formed bcrypt encoding or a string bcrypt fails to decode. -/
inductive StoredHash where
  | wellFormed (d : BcryptDigest)
  | malformed (raw : String)
deriving DecidableEq, Repr

/-- bcryptKey is the portion of the password bcrypt feeds the key
schedule: at most 72 bytes (modelled as characters). -/
def bcryptKey (password : String) : List Char := password.data.take 72

/-- generateFromPassword is `bcrypt.GenerateFromPassword`: reject
passwords longer than 72 bytes, otherwise derive the digest with a fresh
salt (passed explicitly since the model is pure). -/
def generateFromPassword (salt : Nat) (password : String) (cost : Nat) :
    Except GoErr BcryptDigest :=
  if goLen password > 72 then .error errPasswordTooLong
  else .ok ⟨cost, salt, bcryptKey password⟩

/-- compareHashAndPassword is `bcrypt.CompareHashAndPassword`: decode the
stored hash, recompute the digest from the candidate with the stored salt
and cost, and compare; mismatch is the sentinel error, success is nil. -/
def compareHashAndPassword (h : StoredHash) (password : String) : Option GoErr :=
  match h with
  | .malformed _ => some errHashTooShort
  | .wellFormed d =>
      if bcryptKey password = d.key then none else some errMismatchedHashAndPassword

/-- EncryptPassword is `security.EncryptPassword`: bcrypt with the default
cost. -/
def EncryptPassword (salt : Nat) (password : String) : Except GoErr StoredHash :=
  (generateFromPassword salt password bcryptDefaultCost).map .wellFormed

/-- CheckPassword is `security.CheckPassword`. -/
def CheckPassword (hash : StoredHash) (password : String) : Option GoErr :=
  compareHashAndPassword hash password

/-! The user controllers (controllers package: Login, UpdateProfile) and
the user repository backed by the users table. -/

/-- GUser is `models.User`: the stored user row.  The password hash is the
stored bcrypt string, modelled by StoredHash.  UpdatedAt and the soft-
delete marker play no role in the verified claims and are omitted. -/
structure GUser where
  id : Nat
  createdAt : Int
  name : String
  email : String
  passwordHash : StoredHash
  partnerName : String
deriving DecidableEq, Repr

/-- LoginRequest is `models.LoginRequest` as used by the Login handler:
the email and password fields of the request body. -/
structure LoginRequest where
  email : String
  password : String
deriving DecidableEq, Repr

/-- findByEmail is `UserRepository.FindByEmail`: the first stored user
with the given email ("record not found" becomes `none`). -/
def findByEmail (store : List GUser) (email : String) : Option GUser :=
  store.find? (fun u => u.email == email)

/-- findByID is `UserRepository.FindByID`: the first stored user with the
given primary key. -/
def findByID (store : List GUser) (id : Nat) : Option GUser :=
  store.find? (fun u => u.id == id)

/-- saveUser is `UserRepository.Update` (gorm `Save`): write the given
record over the row with its primary key. -/
def saveUser (store : List GUser) (u : GUser) : List GUser :=
  store.map (fun v => if v.id == u.id then u else v)

/-- timingAttackDelayMs is the `timingAttackDelay` constant
(100 milliseconds). -/
def timingAttackDelayMs : Nat := 100

/-- userResponse is the `userResponse` struct serialised into successful
responses. -/
structure UserResponse where
  id : Nat
  name : String
  email : String
  partnerName : String
  createdAt : Int
deriving DecidableEq, Repr

/-- LoginBody is the JSON body the Login handler writes: either an
`errorResponse` or a `loginResponse`. -/
inductive LoginBody where
  | err (msg : String)
  | success (token : TokenStr) (expiresIn : Int) (user : UserResponse)
deriving DecidableEq, Repr

/-- LoginResult is the observable outcome of the Login handler: HTTP
status, body, and how many milliseconds of artificial delay were slept
before responding. -/
structure LoginResult where
  status : Nat
  body : LoginBody
  sleptMs : Nat
deriving DecidableEq, Repr

/-- mkUserResponse builds the `userResponse` for a stored user, as the
handlers do. -/
def mkUserResponse (u : GUser) : UserResponse :=
  ⟨u.id, u.name, u.email, u.partnerName, u.createdAt⟩

/-- Login is `controllers.Login`: bind the body (failure: 422), look up
the user by email (failure: sleep the fixed delay, 401 with the collapsed
message), check the password (failure: the same sleep and the same 401
response), then issue a token and answer 200 with the token, its lifetime
in seconds, and the user.  A `none` body models a request that fails JSON
binding.  Token creation cannot fail in the HMAC model, so the 500 branch
of the source is unreachable here. -/
def Login (secret : String) (now : Int) (store : List GUser)
    (req : Option LoginRequest) : LoginResult :=
  match req with
  | none => ⟨422, .err "invalid request data", 0⟩
  | some r =>
      match findByEmail store r.email with
      | none => ⟨401, .err "invalid email or password", timingAttackDelayMs⟩
      | some user =>
          match CheckPassword user.passwordHash r.password with
          | some _ => ⟨401, .err "invalid email or password", timingAttackDelayMs⟩
          | none =>
              ⟨200, .success (CreateToken secret now user.id user.email)
                (TokenExpirationTime) (mkUserResponse user), 0⟩

/-- UpdateBody is the UpdateProfile request body struct: name and
partner_name, zero value "" when a field is omitted. -/
structure UpdateBody where
  name : String
  partnerName : String
deriving DecidableEq, Repr

/-- bindOkUpdate models the gin binding tags of the UpdateProfile body:
name is empty or 2..100 characters, partner_name is empty or at most 100
characters. -/
def bindOkUpdate (b : UpdateBody) : Bool :=
  (b.name == "" || (2 ≤ b.name.length && b.name.length ≤ 100)) &&
  (b.partnerName == "" || b.partnerName.length ≤ 100)

/-- UPResult is the observable outcome of UpdateProfile: the HTTP status
and the user store after the handler ran. -/
structure UPResult where
  status : Nat
  store : List GUser
deriving DecidableEq, Repr

/-- UpdateProfile is `controllers.UpdateProfile`: authenticate via
ExtractUserID (failure: 401), bind and validate the body (failure: 400),
fetch the user (failure: 404), overwrite name and partner_name only when
the corresponding field is non-empty (trimming white space), and save.
The repository write is modelled as always succeeding, so the 500 branch
of the source is unreachable here. -/
def UpdateProfile (secret : String) (now : Int) (hdr : Header)
    (body : Option UpdateBody) (store : List GUser) : UPResult :=
  match ExtractUserID secret now hdr with
  | .error _ => ⟨401, store⟩
  | .ok userID =>
      match body with
      | none => ⟨400, store⟩
      | some b =>
          if bindOkUpdate b = false then ⟨400, store⟩
          else
            match findByID store userID with
            | none => ⟨404, store⟩
            | some user =>
                let u1 := if b.name ≠ "" then { user with name := goTrimSpace b.name } else user
                let u2 :=
                  if b.partnerName ≠ "" then { u1 with partnerName := goTrimSpace b.partnerName }
                  else u1
                ⟨200, saveUser store u2⟩

/-! Helper lemmas. -/

theorem utf8Len_append (a b : List Char) : utf8Len (a ++ b) = utf8Len a + utf8Len b := by
  induction a with
  | nil => simp [utf8Len]
  | cons ch rest ih => simp [utf8Len, ih]; omega

theorem utf8Len_pos {t : List Char} (h : t ≠ []) : 0 < utf8Len t := by
  cases t with
  | nil => exact absurd rfl h
  | cons ch rest => have := Char.utf8Size_pos ch; simp [utf8Len]; omega

theorem length_le_utf8Len (t : List Char) : t.length ≤ utf8Len t := by
  induction t with
  | nil => simp [utf8Len]
  | cons ch rest ih => have := Char.utf8Size_pos ch; simp [utf8Len]; omega

/-- Claim C5: CreateToken issues a token whose claims have issued-at and
not-before equal to the issuing time, expiration 24 hours later, issuer
"wedding_planner_service" and subject the decimal string of the user ID,
signed HMAC-SHA256 ("HS256") with the process secret; these claims
satisfy not-before ≤ issued-at < expiration. -/
theorem c5_createToken_claims (secret : String) (now : Int) (userID : Nat) (email : String) :
    ∃ claims : TClaims,
      CreateToken secret now userID email =
        .wellFormed ⟨"HS256", claims, hmacSign secret "HS256" claims⟩ ∧
      claims.userID = userID ∧ claims.email = email ∧
      claims.iat = some now ∧ claims.nbf = some now ∧
      claims.exp = some (now + TokenExpirationTime) ∧ TokenExpirationTime = 24 * 3600 ∧
      claims.issuer = "wedding_planner_service" ∧ claims.subject = toString userID ∧
      ∃ nbf iat exp, claims.nbf = some nbf ∧ claims.iat = some iat ∧ claims.exp = some exp ∧
        nbf ≤ iat ∧ iat < exp := by
  refine ⟨_, rfl, rfl, rfl, rfl, rfl, rfl, rfl, rfl, rfl,
    now, now, now + TokenExpirationTime, rfl, rfl, rfl, le_refl now, ?_⟩
  simp [TokenExpirationTime]

/-- Claim C2: issuing a token for any (principal id, email) pair and
immediately parsing it back under the same secret succeeds, and the
returned claims carry that user ID, that email, and the decimal string of
the ID as subject; VerifyToken accepts the same token. -/
theorem c2_roundtrip (secret : String) (now : Int) (principalID : Nat) (email : String) :
    ∃ claims : TClaims,
      ExtractTokenMetadata secret now (.bearer (CreateToken secret now principalID email)) =
        .ok claims ∧
      claims.userID = principalID ∧ claims.email = email ∧
      claims.subject = toString principalID ∧
      VerifyToken secret now (.bearer (CreateToken secret now principalID email)) = none := by
  have hexp : now < now + TokenExpirationTime := by simp [TokenExpirationTime]
  refine ⟨{ userID := principalID, email := email, exp := some (now + TokenExpirationTime),
            iat := some now, nbf := some now, issuer := "wedding_planner_service",
            subject := toString principalID }, ?_, rfl, rfl, rfl, ?_⟩ <;>
    simp [ExtractTokenMetadata, VerifyToken, CreateToken, extractTokenWire, parseWithClaims,
      returnVerificationKey, validatorValidate, registeredAlgs, hmacAlgs, hmacSign, hexp]

/-- Claim C4: ExtractToken returns the whitespace-trimmed remainder after
the case-sensitive prefix "Bearer " whenever the Authorization header value
starts with that prefix, and the empty string for every other header value
(a missing header arrives as the empty string); in particular
"Bearer abc123" gives "abc123" and "Basic abc123" gives "". -/
theorem c4_extractToken (s : String) :
    ExtractToken s =
      (if goHasPrefix s "Bearer " then goTrimSpace (String.mk (s.data.drop 7)) else "") ∧
    ExtractToken "Bearer abc123" = "abc123" ∧
    ExtractToken "Basic abc123" = "" ∧
    ExtractToken "" = "" := by
  refine ⟨?_, by decide, by decide, by decide⟩
  by_cases hp : goHasPrefix s "Bearer " = true
  · rw [if_pos hp]
    have hpre : ("Bearer ".data) <+: s.data := by
      have hp2 : ("Bearer ".data).isPrefixOf s.data = true := hp
      exact List.isPrefixOf_iff_prefix.mp hp2
    obtain ⟨t, ht⟩ := hpre
    have hdrop : s.data.drop 7 = t := by
      rw [← ht]
      have h7 : ("Bearer ".data).length = 7 := by decide
      rw [← h7, List.drop_left]
    have hlen : goLen s = 7 + utf8Len t := by
      have h7 : utf8Len ("Bearer ".data) = 7 := by decide
      rw [goLen, ← ht, utf8Len_append, h7]
    by_cases hempty : t = []
    · subst hempty
      simp only [utf8Len] at hlen
      have : ¬ goLen s > 7 := by omega
      simp [ExtractToken, this, hdrop]
      decide
    · have hgt : goLen s > 7 := by
        have := utf8Len_pos hempty
        omega
      simp [ExtractToken, hgt, hp, hdrop]
  · rw [if_neg hp]
    simp [ExtractToken]
    intro _
    exact fun hc => absurd hc hp

/-- Claim C6: whenever token verification fails — in particular on a
request with no Authorization header, which fails with the token-missing
error — the middleware answers 401 with the error message in the body and
no downstream handler runs; whenever verification and user-ID extraction
succeed, the ID is stored under the context key "user_id" and the
pipeline continues. -/
theorem c6_authMiddleware (secret : String) (now : Int) (hdr : Header) :
    (∀ e, VerifyToken secret now hdr = some e →
        AuthMiddleware secret now hdr = ⟨some 401, some (errMsg e), none, false⟩) ∧
    (hdr = Header.missing →
        VerifyToken secret now hdr = some ErrTokenMissing ∧
        errMsg ErrTokenMissing = "authorization token is missing") ∧
    (VerifyToken secret now hdr = none →
        ∃ userID, ExtractUserID secret now hdr = .ok userID ∧
          AuthMiddleware secret now hdr = ⟨none, none, some ("user_id", userID), true⟩) := by
  refine ⟨?_, ?_, ?_⟩
  · intro e he
    simp [AuthMiddleware, he]
  · rintro rfl
    exact ⟨rfl, rfl⟩
  · intro hv
    cases hdr with
    | missing => simp [VerifyToken, extractTokenWire] at hv
    | other s => simp [VerifyToken, extractTokenWire] at hv
    | bearer ts =>
      rcases hout : (parseWithClaims secret now ts).err with _ | e
      · rcases hvalid : (parseWithClaims secret now ts).valid with _ | _
        · simp [VerifyToken, extractTokenWire, hout, hvalid] at hv
        · refine ⟨(parseWithClaims secret now ts).claims.userID, ?_, ?_⟩
          · simp [ExtractUserID, extractTokenWire, hout, hvalid]
          · simp [AuthMiddleware, hv, ExtractUserID, extractTokenWire, hout, hvalid]
      · exfalso
        rcases h1 : errsIs e jwtErrTokenExpired <;>
          rcases h2 : errsIs e jwtErrTokenNotValidYet <;>
            simp [VerifyToken, extractTokenWire, hout, h1, h2] at hv

/-- Witness for C6 at concrete inputs: a request with no header is
rejected with 401 and the token-missing message, and a request carrying a
freshly issued token for user 42 goes through with "user_id" set to 42. -/
theorem c6_witness :
    AuthMiddleware "s" 0 Header.missing =
      ⟨some 401, some "authorization token is missing", none, false⟩ ∧
    AuthMiddleware "s" 0 (.bearer (CreateToken "s" 0 42 "e")) =
      ⟨none, none, some ("user_id", 42), true⟩ := by
  have h := c6_authMiddleware "s" 0 Header.missing
  refine ⟨h.1 ErrTokenMissing (h.2.1 rfl).1, ?_⟩
  obtain ⟨uid, hex, hmw⟩ :=
    (c6_authMiddleware "s" 0 (.bearer (CreateToken "s" 0 42 "e"))).2.2 (by decide)
  have huid : uid = 42 := by
    have h42 : ExtractUserID "s" 0 (.bearer (CreateToken "s" 0 42 "e")) = .ok 42 := by rfl
    rw [h42] at hex
    exact (Except.ok.inj hex).symm
  rw [huid] at hmw
  exact hmw

/-- Claim C7: a login whose email is not in the store and a login whose
password does not match produce the very same observable outcome — HTTP
401, body with the single collapsed message "invalid email or password",
and the same fixed artificial delay — so the two failure causes are
indistinguishable. -/
theorem c7_login_indistinguishable (secret : String) (now : Int) (store : List GUser)
    (r : LoginRequest) :
    (findByEmail store r.email = none →
        Login secret now store (some r) =
          ⟨401, .err "invalid email or password", timingAttackDelayMs⟩) ∧
    (∀ user e, findByEmail store r.email = some user →
        CheckPassword user.passwordHash r.password = some e →
        Login secret now store (some r) =
          ⟨401, .err "invalid email or password", timingAttackDelayMs⟩) := by
  constructor
  · intro hne
    simp [Login, hne]
  · intro user e hfind hpw
    simp [Login, hfind, hpw]

/-- Witness for C7 at concrete inputs: unknown email and wrong password
both produce exactly 401 / "invalid email or password" / 100 ms delay. -/
theorem c7_witness :
    Login "k" 0 [] (some ⟨"a@b.com", "pw"⟩) =
      ⟨401, .err "invalid email or password", 100⟩ ∧
    Login "k" 0 [⟨1, 0, "Ann", "a@b.com", .wellFormed ⟨10, 3, bcryptKey "Password1!"⟩, "Bob"⟩]
        (some ⟨"a@b.com", "wrongpass"⟩) =
      ⟨401, .err "invalid email or password", 100⟩ := by
  constructor
  · exact (c7_login_indistinguishable "k" 0 [] ⟨"a@b.com", "pw"⟩).1 (by decide)
  · exact (c7_login_indistinguishable "k" 0
      [⟨1, 0, "Ann", "a@b.com", .wellFormed ⟨10, 3, bcryptKey "Password1!"⟩, "Bob"⟩]
      ⟨"a@b.com", "wrongpass"⟩).2
      ⟨1, 0, "Ann", "a@b.com", .wellFormed ⟨10, 3, bcryptKey "Password1!"⟩, "Bob"⟩
      errMismatchedHashAndPassword (by decide) (by decide)

/-- Claim C9: hashing a password within the supported length (at most 72
bytes) and verifying the result against the same password succeeds;
verifying it against any different password (within the supported length)
reports the mismatch error rather than throwing; and on any well-formed
stored hash the verification outcome is success or mismatch only, so any
other error can arise only from a malformed stored hash. -/
theorem c9_bcrypt_roundtrip (p : String) (salt : Nat) (hp : goLen p ≤ 72) :
    ∃ d : BcryptDigest,
      EncryptPassword salt p = .ok (.wellFormed d) ∧
      CheckPassword (.wellFormed d) p = none ∧
      (∀ q : String, goLen q ≤ 72 → q ≠ p →
          CheckPassword (.wellFormed d) q = some errMismatchedHashAndPassword) ∧
      (∀ h : BcryptDigest, ∀ q : String,
          CheckPassword (.wellFormed h) q = none ∨
          CheckPassword (.wellFormed h) q = some errMismatchedHashAndPassword) := by
  have hok : ¬ goLen p > 72 := by omega
  refine ⟨⟨bcryptDefaultCost, salt, bcryptKey p⟩, ?_, ?_, ?_, ?_⟩
  · simp [EncryptPassword, generateFromPassword, hok, Except.map]
  · simp [CheckPassword, compareHashAndPassword]
  · intro q hq hqp
    have hkeyp : bcryptKey p = p.data :=
      List.take_of_length_le (le_trans (length_le_utf8Len p.data) hp)
    have hkeyq : bcryptKey q = q.data :=
      List.take_of_length_le (le_trans (length_le_utf8Len q.data) hq)
    have hne : bcryptKey q ≠ bcryptKey p := by
      rw [hkeyp, hkeyq]
      intro hdata
      exact hqp (String.ext hdata)
    simp [CheckPassword, compareHashAndPassword, hne]
  · intro h q
    by_cases hk : bcryptKey q = h.key
    · left; simp [CheckPassword, compareHashAndPassword, hk]
    · right; simp [CheckPassword, compareHashAndPassword, hk]

/-- Witness for C9 at concrete inputs: hash "Password1!", verify against
the same password (success) and against "wrongpass" (mismatch). -/
theorem c9_witness :
    goLen "Password1!" ≤ 72 ∧
    ∃ d : BcryptDigest,
      EncryptPassword 0 "Password1!" = .ok (.wellFormed d) ∧
      CheckPassword (.wellFormed d) "Password1!" = none ∧
      CheckPassword (.wellFormed d) "wrongpass" = some errMismatchedHashAndPassword := by
  obtain ⟨d, h1, h2, h3, _⟩ := c9_bcrypt_roundtrip "Password1!" 0 (by decide)
  exact ⟨by decide, d, h1, h2, h3 "wrongpass" (by decide) (by decide)⟩

theorem findByID_eq_id (store : List GUser) (id : Nat) (user : GUser)
    (h : findByID store id = some user) : user.id = id := by
  have h2 : List.find? (fun u => u.id == id) store = some user := h
  have hp := List.find?_some h2
  simp only [] at hp
  exact eq_of_beq hp

theorem find?_saveUser (store : List GUser) (id : Nat) (user u2 : GUser)
    (hfind : findByID store id = some user) (hid : u2.id = user.id) :
    findByID (saveUser store u2) id = some u2 := by
  have huser : user.id = id := findByID_eq_id store id user hfind
  induction store with
  | nil => simp [findByID] at hfind
  | cons h rest ih =>
    rcases hh : (h.id == id) with _ | _
    · have hfind2 : findByID rest id = some user := by
        simpa [findByID, List.find?, hh] using hfind
      have hne : (h.id == u2.id) = false := by
        rw [hid, huser]
        exact hh
      simpa [findByID, saveUser, List.find?, hne, hh] using ih hfind2
    · have hhid : h.id = id := eq_of_beq hh
      have heq : (h.id == u2.id) = true := by
        rw [hid, huser, hhid]
        exact beq_self_eq_true id
      have hu2 : (u2.id == id) = true := by
        rw [hid, huser]
        exact beq_self_eq_true id
      simp [findByID, saveUser, List.find?, heq, hu2]

theorem mem_saveUser (store : List GUser) (u2 v : GUser)
    (hv : v ∈ store) (hne : v.id ≠ u2.id) : v ∈ saveUser store u2 := by
  have hbeq : (v.id == u2.id) = false := beq_eq_false_iff_ne.mpr hne
  have : (fun w => if w.id == u2.id then u2 else w) v = v := by simp [hbeq]
  have hmem := List.mem_map_of_mem (fun w => if w.id == u2.id then u2 else w) hv
  rw [this] at hmem
  exact hmem

/-- Claim C10: a successful UpdateProfile run changes at most the Name and
PartnerName fields of the authenticated user row — ID, Email,
PasswordHash and CreatedAt are unchanged — a field sent empty (the
omitted-field zero value) keeps its prior stored value, and every other
stored user row is untouched. -/
theorem c10_updateProfile_frame (secret : String) (now : Int) (hdr : Header)
    (b : UpdateBody) (store : List GUser) (res : UPResult)
    (hrun : UpdateProfile secret now hdr (some b) store = res)
    (h200 : res.status = 200) :
    ∃ userID user updated,
      ExtractUserID secret now hdr = .ok userID ∧
      findByID store userID = some user ∧
      res.store = saveUser store updated ∧
      findByID res.store userID = some updated ∧
      updated.id = user.id ∧ updated.email = user.email ∧
      updated.passwordHash = user.passwordHash ∧ updated.createdAt = user.createdAt ∧
      (b.name = "" → updated.name = user.name) ∧
      (b.partnerName = "" → updated.partnerName = user.partnerName) ∧
      (∀ v ∈ store, v.id ≠ userID → v ∈ res.store) := by
  rcases hex : ExtractUserID secret now hdr with e | userID
  · rw [UpdateProfile, hex] at hrun
    rw [← hrun] at h200
    simp at h200
  · rcases hbind : bindOkUpdate b with _ | _
    · rw [UpdateProfile, hex] at hrun
      simp only [hbind] at hrun
      rw [← hrun] at h200
      simp at h200
    · rcases hfind : findByID store userID with _ | user
      · rw [UpdateProfile, hex] at hrun
        simp only [hbind, hfind] at hrun
        rw [← hrun] at h200
        simp at h200
      · have huser : user.id = userID := findByID_eq_id store userID user hfind
        rw [UpdateProfile, hex] at hrun
        simp only [hbind, hfind] at hrun
        set u1 := if b.name ≠ "" then { user with name := goTrimSpace b.name } else user with hu1
        set u2 := if b.partnerName ≠ "" then { u1 with partnerName := goTrimSpace b.partnerName }
          else u1 with hu2
        have hres : res = ⟨200, saveUser store u2⟩ := by
          rw [← hrun]
          simp
        have hstore : res.store = saveUser store u2 := by rw [hres]
        have hid1 : u1.id = user.id ∧ u1.email = user.email ∧
            u1.passwordHash = user.passwordHash ∧ u1.createdAt = user.createdAt ∧
            u1.partnerName = user.partnerName ∧ (b.name = "" → u1.name = user.name) := by
          rw [hu1]
          split <;> simp_all
        have hid2 : u2.id = u1.id ∧ u2.email = u1.email ∧
            u2.passwordHash = u1.passwordHash ∧ u2.createdAt = u1.createdAt ∧
            u2.name = u1.name ∧ (b.partnerName = "" → u2.partnerName = u1.partnerName) := by
          rw [hu2]
          split <;> simp_all
        refine ⟨userID, user, u2, rfl, hfind, hstore, ?_, ?_, ?_, ?_, ?_, ?_, ?_, ?_⟩
        · rw [hstore]
          exact find?_saveUser store userID user u2 hfind (hid2.1.trans hid1.1)
        · exact hid2.1.trans hid1.1
        · exact hid2.2.1.trans hid1.2.1
        · exact hid2.2.2.1.trans hid1.2.2.1
        · exact hid2.2.2.2.1.trans hid1.2.2.2.1
        · intro hb
          rw [hid2.2.2.2.2.1]
          exact hid1.2.2.2.2.2 hb
        · intro hb
          rw [hid2.2.2.2.2.2 hb]
          exact hid1.2.2.2.2.1
        · intro v hv hvne
          rw [hstore]
          exact mem_saveUser store u2 v hv (by rw [hid2.1.trans hid1.1, huser]; exact hvne)

/-- Witness for C10 at a concrete successful update: user 1 renames to
"Bo" leaving partner_name empty; email, password hash, id and created-at
are carried over unchanged. -/
theorem c10_witness :
    ∃ userID user updated,
      ExtractUserID "k" 0 (.bearer (CreateToken "k" 0 1 "a@b.com")) = .ok userID ∧
      findByID [⟨1, 5, "Ann", "a@b.com", .wellFormed ⟨10, 3, bcryptKey "Password1!"⟩, "Bob"⟩]
        userID = some user ∧
      (UpdateProfile "k" 0 (.bearer (CreateToken "k" 0 1 "a@b.com")) (some ⟨"Bo", ""⟩)
        [⟨1, 5, "Ann", "a@b.com", .wellFormed ⟨10, 3, bcryptKey "Password1!"⟩, "Bob"⟩]).store =
        saveUser [⟨1, 5, "Ann", "a@b.com", .wellFormed ⟨10, 3, bcryptKey "Password1!"⟩, "Bob"⟩]
          updated ∧
      updated.email = user.email ∧ updated.passwordHash = user.passwordHash ∧
      updated.id = user.id ∧ updated.createdAt = user.createdAt ∧
      updated.partnerName = user.partnerName := by
  obtain ⟨userID, user, updated, hex, hfind, hstore, _, hid, hemail, hhash, hcreated, _,
      hpartner, _⟩ :=
    c10_updateProfile_frame "k" 0 (.bearer (CreateToken "k" 0 1 "a@b.com")) ⟨"Bo", ""⟩
      [⟨1, 5, "Ann", "a@b.com", .wellFormed ⟨10, 3, bcryptKey "Password1!"⟩, "Bob"⟩] _ rfl
      (by rfl)
  exact ⟨userID, user, updated, hex, hfind, hstore, hemail, hhash, hid, hcreated,
    hpartner rfl⟩

/-- Claim C1, corrected.  The algorithm check does run before any
signature or temporal check: for a structurally well-formed token whose
header algorithm is outside the HMAC family, the outcome of VerifyToken
does not depend on the signature, the claims, or the clock, and is never
a temporal error.  But the error VerifyToken returns is the generic
TokenInvalid error (the signing-method failure is rendered into its
message via a non-wrapping format verb), so under the `errors.Is`
discipline the result is TokenInvalid and not InvalidSigningMethod. -/
theorem c1_nonHMAC_flattened_to_TokenInvalid (secret : String) (now : Int)
    (al : String) (cl : TClaims) (sg : Sig) (h : hmacAlgs.contains al = false) :
    ∃ e, VerifyToken secret now (.bearer (.wellFormed ⟨al, cl, sg⟩)) = some e ∧
      errsIs e ErrTokenInvalid = true ∧
      errsIs e ErrInvalidSigningMethod = false ∧
      errsIs e jwtErrTokenExpired = false ∧
      errsIs e jwtErrTokenNotValidYet = false ∧
      e ≠ ErrTokenExpired ∧ e ≠ ErrTokenNotValidYet ∧
      (∀ now2 claims2 sig2,
        VerifyToken secret now2 (.bearer (.wellFormed ⟨al, claims2, sig2⟩)) =
          VerifyToken secret now (.bearer (.wellFormed ⟨al, cl, sg⟩))) := by
  have hmemh : al ∉ hmacAlgs := by simpa using h
  by_cases hreg : registeredAlgs.contains al = true
  · have hmem : al ∈ registeredAlgs := by simpa using hreg
    have hparse : ∀ (n : Int) (c : TClaims) (s : Sig),
        parseWithClaims secret n (.wellFormed ⟨al, c, s⟩) =
          ⟨c, false, some (newError1 "error while executing keyfunc" jwtErrTokenUnverifiable
            (goWrapV ErrInvalidSigningMethod al))⟩ := by
      intro n c s
      simp [parseWithClaims, hmem, returnVerificationKey, hmemh]
    have hvt : ∀ (n : Int) (c : TClaims) (s : Sig),
        VerifyToken secret n (.bearer (.wellFormed ⟨al, c, s⟩)) =
          some (goWrapV ErrTokenInvalid (errMsg (newError1 "error while executing keyfunc"
            jwtErrTokenUnverifiable (goWrapV ErrInvalidSigningMethod al)))) := by
      intro n c s
      simp only [VerifyToken, extractTokenWire, hparse]
      rfl
    refine ⟨_, hvt now cl sg, rfl, rfl, rfl, rfl, ?_, ?_, ?_⟩
    · simp [goWrapV, ErrTokenExpired]
    · simp [goWrapV, ErrTokenNotValidYet]
    · intro now2 claims2 sig2
      rw [hvt, hvt]
  · have hmem : al ∉ registeredAlgs := by
      simp only [Bool.not_eq_true] at hreg
      simpa using hreg
    have hparse : ∀ (n : Int) (c : TClaims) (s : Sig),
        parseWithClaims secret n (.wellFormed ⟨al, c, s⟩) =
          ⟨c, false,
            some (newError0 "signing method (alg) is unavailable" jwtErrTokenUnverifiable)⟩ := by
      intro n c s
      simp [parseWithClaims, hmem]
    have hvt : ∀ (n : Int) (c : TClaims) (s : Sig),
        VerifyToken secret n (.bearer (.wellFormed ⟨al, c, s⟩)) =
          some (goWrapV ErrTokenInvalid (errMsg
            (newError0 "signing method (alg) is unavailable" jwtErrTokenUnverifiable))) := by
      intro n c s
      simp only [VerifyToken, extractTokenWire, hparse]
      rfl
    refine ⟨_, hvt now cl sg, rfl, rfl, rfl, rfl, ?_, ?_, ?_⟩
    · simp [goWrapV, ErrTokenExpired]
    · simp [goWrapV, ErrTokenNotValidYet]
    · intro now2 claims2 sig2
      rw [hvt, hvt]

/-- Counterexample for C1 as stated: on a well-formed RS256 token,
VerifyToken returns an error that IS the generic TokenInvalid error under
`errors.Is` and is NOT the InvalidSigningMethod error — the opposite of
the claimed error identity. -/
theorem c1_counterexample :
    (match VerifyToken "k" 0
        (.bearer (.wellFormed ⟨"RS256", zeroClaims, hmacSign "k" "RS256" zeroClaims⟩)) with
      | some e => errsIs e ErrTokenInvalid && !(errsIs e ErrInvalidSigningMethod)
      | none => false) = true := by decide

/-- Witness for the corrected C1 at the concrete algorithm RS256. -/
theorem c1_witness :
    hmacAlgs.contains "RS256" = false ∧
    ∃ e, VerifyToken "k" 0 (.bearer (.wellFormed ⟨"RS256", zeroClaims,
        hmacSign "k" "RS256" zeroClaims⟩)) = some e ∧
      errsIs e ErrTokenInvalid = true ∧ errsIs e ErrInvalidSigningMethod = false := by
  obtain ⟨e, h1, h2, h3, _⟩ := c1_nonHMAC_flattened_to_TokenInvalid "k" 0 "RS256" zeroClaims
    (hmacSign "k" "RS256" zeroClaims) (by decide)
  exact ⟨by decide, e, h1, h2, h3⟩

theorem hmac_registered {al : String} (h : hmacAlgs.contains al = true) :
    registeredAlgs.contains al = true := by
  simp [hmacAlgs] at h
  rcases h with rfl | rfl | rfl <;> decide

theorem parse_validSig (secret : String) (now : Int) (c : TClaims) (al : String)
    (halg : hmacAlgs.contains al = true) :
    parseWithClaims secret now (.wellFormed ⟨al, c, hmacSign secret al c⟩) =
      match validatorValidate now c with
      | some ve => ⟨c, false, some (newError1 "" jwtErrTokenInvalidClaims ve)⟩
      | none => ⟨c, true, none⟩ := by
  have hmem : al ∈ registeredAlgs := by simpa using hmac_registered halg
  have hmemh : al ∈ hmacAlgs := by simpa using halg
  simp [parseWithClaims, hmem, returnVerificationKey, hmemh]

/-- Claim C3, corrected.  For a token with a valid HMAC signature under
the process secret: when the expiration has passed VerifyToken fails with
exactly TokenExpired; when the not-before timestamp is in the future and
the token is not also expired it fails with exactly TokenNotValidYet
(when both temporal violations hold simultaneously the expiration check
wins and TokenExpired is returned); it never succeeds on such a token. -/
theorem c3_temporal_checks (secret : String) (now : Int) (c : TClaims) (al : String)
    (halg : hmacAlgs.contains al = true) :
    (∀ x, c.exp = some x → x ≤ now →
        VerifyToken secret now (.bearer (.wellFormed ⟨al, c, hmacSign secret al c⟩)) =
          some ErrTokenExpired) ∧
    (∀ b, c.nbf = some b → now < b → (∀ x, c.exp = some x → now < x) →
        VerifyToken secret now (.bearer (.wellFormed ⟨al, c, hmacSign secret al c⟩)) =
          some ErrTokenNotValidYet) ∧
    (((∃ x, c.exp = some x ∧ x ≤ now) ∨ (∃ b, c.nbf = some b ∧ now < b)) →
        VerifyToken secret now (.bearer (.wellFormed ⟨al, c, hmacSign secret al c⟩)) ≠ none) := by
  have hparse := parse_validSig secret now c al halg
  refine ⟨?_, ?_, ?_⟩
  · intro x hx hxle
    have hlt : ¬ (now < x) := by omega
    have hval : ∃ ve, validatorValidate now c = some ve ∧ errsIs ve jwtErrTokenExpired = true := by
      rcases hnbf : c.nbf with _ | b
      · exact ⟨jwtErrTokenExpired, by simp [validatorValidate, hx, hnbf, hlt], rfl⟩
      · by_cases hb : now < b
        · exact ⟨.wrap2 (errMsg jwtErrTokenExpired ++ "\n" ++ errMsg jwtErrTokenNotValidYet)
            jwtErrTokenExpired jwtErrTokenNotValidYet,
            by simp [validatorValidate, hx, hnbf, hlt, hb], rfl⟩
        · exact ⟨jwtErrTokenExpired, by simp [validatorValidate, hx, hnbf, hlt, hb], rfl⟩
    obtain ⟨ve, hve, hxp⟩ := hval
    have hIs : errsIs (newError1 "" jwtErrTokenInvalidClaims ve) jwtErrTokenExpired = true := by
      simp [newError1, errsIs, hxp]
    simp only [VerifyToken, extractTokenWire, hparse, hve, hIs]
    rfl
  · intro b hb hfut hexpok
    have hval : validatorValidate now c = some jwtErrTokenNotValidYet := by
      rcases hx : c.exp with _ | x
      · simp [validatorValidate, hx, hb, hfut]
      · have := hexpok x hx
        simp [validatorValidate, hx, hb, hfut, this]
    simp only [VerifyToken, extractTokenWire, hparse, hval]
    rfl
  · intro hbad
    have hval : validatorValidate now c ≠ none := by
      rcases hbad with ⟨x, hx, hxle⟩ | ⟨b, hb, hfut⟩
      · have hlt : ¬ (now < x) := by omega
        rcases hnbf : c.nbf with _ | b2
        · simp [validatorValidate, hx, hnbf, hlt]
        · by_cases hb2 : now < b2 <;> simp [validatorValidate, hx, hnbf, hlt, hb2]
      · rcases hx : c.exp with _ | x
        · simp [validatorValidate, hx, hb, hfut]
        · by_cases hxlt : now < x <;> simp [validatorValidate, hx, hb, hfut, hxlt]
    rcases hve : validatorValidate now c with _ | ve
    · exact absurd hve hval
    · simp only [VerifyToken, extractTokenWire, hparse, hve]
      split
      · simp
      · split <;> simp

/-- c3claims is a claims payload that is both expired (exp in the past)
and not yet valid (nbf in the future) at time 0. -/
def c3claims : TClaims := ⟨7, "e", some (-1), some (-1), some 50, "i", "7"⟩

/-- Counterexample for C3 as stated: a validly signed token whose
not-before timestamp (50) is in the future at time 0 is rejected with
TokenExpired (its expiration also passed), not with TokenNotValidYet as
the claim requires for every token with nbf in the future. -/
theorem c3_counterexample :
    ((0 : Int) < 50) ∧ c3claims.nbf = some 50 ∧
    VerifyToken "k" 0
      (.bearer (.wellFormed ⟨"HS256", c3claims, hmacSign "k" "HS256" c3claims⟩)) =
      some ErrTokenExpired ∧
    VerifyToken "k" 0
      (.bearer (.wellFormed ⟨"HS256", c3claims, hmacSign "k" "HS256" c3claims⟩)) ≠
      some ErrTokenNotValidYet := by decide

/-- c3expiredClaims is expired at time 200 (exp = 100). -/
def c3expiredClaims : TClaims := ⟨7, "e", some 100, some 0, some 0, "i", "7"⟩

/-- c3nbfClaims is not yet valid at time 0 (nbf = 50, exp = 100 fine). -/
def c3nbfClaims : TClaims := ⟨7, "e", some 100, some 0, some 50, "i", "7"⟩

/-- Witness for the corrected C3: an expired token yields TokenExpired, a
not-yet-valid (and unexpired) token yields TokenNotValidYet. -/
theorem c3_witness :
    VerifyToken "k" 200 (.bearer (.wellFormed
      ⟨"HS256", c3expiredClaims, hmacSign "k" "HS256" c3expiredClaims⟩)) =
      some ErrTokenExpired ∧
    VerifyToken "k" 0 (.bearer (.wellFormed
      ⟨"HS256", c3nbfClaims, hmacSign "k" "HS256" c3nbfClaims⟩)) =
      some ErrTokenNotValidYet := by
  constructor
  · exact (c3_temporal_checks "k" 200 c3expiredClaims "HS256" (by decide)).1 100 rfl (by decide)
  · refine (c3_temporal_checks "k" 0 c3nbfClaims "HS256" (by decide)).2.1 50 rfl (by decide) ?_
    intro x hx
    simp [c3nbfClaims] at hx
    omega

/-- Claim C8, corrected.  ExtractUserID fails with TokenMissing when no
token is present, and with the generic TokenInvalid error for every
token-verification failure — any parse error, or a parsed token whose
validity flag is false; it does not propagate the specific error from
verify.  On a token that parses with the validity flag set it returns the
UserID claim. -/
theorem c8_extractUserID_errors (secret : String) (now : Int) (hdr : Header) :
    (extractTokenWire hdr = none → ExtractUserID secret now hdr = .error ErrTokenMissing) ∧
    (∀ ts, extractTokenWire hdr = some ts →
        ((parseWithClaims secret now ts).err ≠ none ∨
          (parseWithClaims secret now ts).valid = false) →
        ExtractUserID secret now hdr = .error ErrTokenInvalid) ∧
    (∀ ts, extractTokenWire hdr = some ts →
        (parseWithClaims secret now ts).err = none →
        (parseWithClaims secret now ts).valid = true →
        ExtractUserID secret now hdr = .ok (parseWithClaims secret now ts).claims.userID) := by
  refine ⟨?_, ?_, ?_⟩
  · intro h
    simp [ExtractUserID, h]
  · intro ts hts hbad
    rcases hbad with hbad | hbad
    · have hs : (parseWithClaims secret now ts).err.isSome = true :=
        Option.isSome_iff_ne_none.mpr hbad
      simp [ExtractUserID, hts, hs]
    · simp [ExtractUserID, hts, hbad]
  · intro ts hts h1 h2
    simp [ExtractUserID, hts, h1, h2]

/-- c8claims is an expired claims payload (exp = 10) at time 100. -/
def c8claims : TClaims := ⟨9, "e", some 10, some 0, some 0, "i", "9"⟩

/-- Counterexample for C8 as stated: on a validly signed expired token,
verify reports the specific TokenExpired error, but ExtractUserID returns
TokenInvalid — it does not propagate the specific error. -/
theorem c8_counterexample :
    ExtractUserID "k" 100
      (.bearer (.wellFormed ⟨"HS256", c8claims, hmacSign "k" "HS256" c8claims⟩)) =
      .error ErrTokenInvalid ∧
    VerifyToken "k" 100
      (.bearer (.wellFormed ⟨"HS256", c8claims, hmacSign "k" "HS256" c8claims⟩)) =
      some ErrTokenExpired ∧
    ErrTokenInvalid ≠ ErrTokenExpired := by
  refine ⟨by rfl, by decide, by decide⟩

/-- Witness for the corrected C8: a missing token gives TokenMissing, and
a validly signed but expired token gives TokenInvalid. -/
theorem c8_witness :
    ExtractUserID "k" 0 Header.missing = .error ErrTokenMissing ∧
    ExtractUserID "k" 100
      (.bearer (.wellFormed ⟨"HS256", c8claims, hmacSign "k" "HS256" c8claims⟩)) =
      .error ErrTokenInvalid := by
  constructor
  · exact (c8_extractUserID_errors "k" 0 Header.missing).1 rfl
  · exact (c8_extractUserID_errors "k" 100
      (.bearer (.wellFormed ⟨"HS256", c8claims, hmacSign "k" "HS256" c8claims⟩))).2.1
      (.wellFormed ⟨"HS256", c8claims, hmacSign "k" "HS256" c8claims⟩) rfl
      (Or.inl (by decide))

end WeddingPlanner
